import Mathlib

/-
Verification development for the FixTrax audio restoration engine
(src/services/AudioEngine.ts, src/services/geminiService.ts and their
historical variants under src/unnamed/).

Modelling conventions:
* Sample values are modelled as exact rationals (ℚ); IEEE-754 double
  arithmetic of the source is modelled by exact arithmetic.  The JavaScript
  constant Math.PI is the concrete double 884279719003555 / 2^48 and is
  modelled by that exact rational.
* An AudioBuffer is planar channel data plus a frame count and sample rate.
* DataView.setInt16 converts its float argument with ECMAScript
  ToIntegerOrInfinity, i.e. truncation toward zero; ratTrunc models this.
* Master-gain values (Math.pow(10, dB/20)) are modelled over ℝ with rpow.
-/

/-- An audio buffer: planar per-channel sample data (`channels`), a frame
count (`buffer.length` in the source) and a sample rate.  Well-formed
buffers have `frameCount` samples in every channel. -/
structure SBuffer where
  channels : List (List ℚ)
  frameCount : ℕ
  sampleRate : ℕ
deriving DecidableEq

/-- Clamp of one sample, from bufferToWav:
Math.max(-1, Math.min(1, buffer.getChannelData(channel)[i])). -/
def clamp (x : ℚ) : ℚ := max (-1) (min 1 x)

/-- Truncation toward zero of a rational to an integer: the conversion
ECMAScript applies to the float handed to DataView.setInt16. -/
def ratTrunc (q : ℚ) : ℤ := if q < 0 then ⌈q⌉ else ⌊q⌋

/-- Per-sample float→int16 conversion of AudioEngine.bufferToWav:
clamp to [-1,1], then sample < 0 ? sample * 0x8000 : sample * 0x7FFF,
truncated by setInt16. -/
def encodeSample (x : ℚ) : ℤ :=
  ratTrunc (if clamp x < 0 then clamp x * 32768 else clamp x * 32767)

/-- Modelled from the spec words (§4.8): clamp each sample to [-1,1], then
sample<0 ? sample*32768 : sample*32767, truncating to an int16. -/
def specFloatToInt16 (x : ℚ) : ℤ :=
  let c := max (-1) (min 1 x)
  if c < 0 then ratTrunc (c * 32768) else ratTrunc (c * 32767)

/-- Little-endian bytes of a 16-bit unsigned value (DataView.setUint16). -/
def uint16LE (n : ℕ) : List ℕ := [n % 256, n / 256 % 256]

/-- Little-endian bytes of a 32-bit unsigned value (DataView.setUint32). -/
def uint32LE (n : ℕ) : List ℕ :=
  [n % 256, n / 256 % 256, n / 65536 % 256, n / 16777216 % 256]

/-- Little-endian two-byte encoding of a signed 16-bit value
(DataView.setInt16 with littleEndian = true): two's complement. -/
def int16LE (v : ℤ) : List ℕ := uint16LE (v % 65536).toNat

/-- Decoding of a little-endian int16 from its two bytes. -/
def decodeInt16LE (b0 b1 : ℕ) : ℤ :=
  let u : ℤ := b0 + 256 * b1
  if u < 32768 then u else u - 65536

/-- The sample order written by bufferToWav's nested loop: for each frame
index i, one sample per channel (interleaved, frame-major). -/
def interleave (channels : List (List ℚ)) (frameCount : ℕ) : List ℚ :=
  (List.range frameCount).flatMap (fun i => channels.map (fun ch => ch.getD i 0))

/-- The 44 header bytes written by bufferToWav: RIFF size, WAVE, fmt chunk
(PCM=1, channels, sampleRate, byteRate, blockAlign, 16 bits), data size. -/
def wavHeader (numChannels sampleRate frameCount : ℕ) : List ℕ :=
  let blockAlign := numChannels * 2
  let byteRate := sampleRate * blockAlign
  let dataSize := frameCount * blockAlign
  let fileSize := 44 + dataSize
  [82, 73, 70, 70] ++ uint32LE (fileSize - 8) ++
  [87, 65, 86, 69] ++ [102, 109, 116, 32] ++ uint32LE 16 ++
  uint16LE 1 ++ uint16LE numChannels ++ uint32LE sampleRate ++
  uint32LE byteRate ++ uint16LE blockAlign ++ uint16LE 16 ++
  [100, 97, 116, 97] ++ uint32LE dataSize

/-- The data section of bufferToWav: every interleaved sample clamped,
scaled and stored as a little-endian int16. -/
def wavData (b : SBuffer) : List ℕ :=
  (interleave b.channels b.frameCount).flatMap (fun s => int16LE (encodeSample s))

/-- AudioEngine.bufferToWav as a byte stream: 44-byte header followed by
the interleaved 16-bit PCM data. -/
def bufferToWav (b : SBuffer) : List ℕ :=
  wavHeader b.channels.length b.sampleRate b.frameCount ++ wavData b

/-- The maximum absolute sample across all channels, as scanned by the
headroom pass of exportMaster in src/unnamed/part_000 (running maximum
starting from 0). -/
def maxAbsSample (channels : List (List ℚ)) : ℚ :=
  channels.foldl (fun m ch => ch.foldl (fun acc x => max acc |x|) m) 0

/-- The documented headroom ceiling of the correction pass
(src/unnamed/part_000, exportMaster). -/
def headroomCeiling : ℚ := 0.98

/-- The post-render headroom correction pass of exportMaster in
src/unnamed/part_000: if the maximum absolute sample exceeds the ceiling,
every sample of every channel is scaled by ceiling / max; otherwise the
buffer is left untouched. -/
def headroomCorrect (channels : List (List ℚ)) : List (List ℚ) :=
  let maxVal := maxAbsSample channels
  if maxVal > headroomCeiling then
    channels.map (fun ch => ch.map (fun x => x * (headroomCeiling / maxVal)))
  else channels

/-- The post-render step of exportMaster in the current
src/services/AudioEngine.ts: the rendered buffer is handed to bufferToWav
unchanged — no headroom correction pass exists there. -/
def exportPostRenderCurrent (channels : List (List ℚ)) : List (List ℚ) :=
  channels

/-- The ECMAScript double Math.PI, as an exact rational:
0x400921FB54442D18 = 884279719003555 * 2^(-48). -/
def mathPI : ℚ := 884279719003555 / 281474976710656

/-- The warmth curve of AudioEngine.makeWarmthCurve (current variant) as a
function of the input value x: with k = amount * 0.25,
y = (Math.PI + k) * x / (Math.PI + k * |x|). -/
def warmthCurveFn (amount x : ℚ) : ℚ :=
  (mathPI + amount * 0.25) * x / (mathPI + amount * 0.25 * |x|)

/-- The curve table generated by makeWarmthCurve: entry i (of n_samples =
44100) is the curve function evaluated at x = (i * 2) / 44100 - 1. -/
def makeWarmthCurve (amount : ℚ) (i : ℕ) : ℚ :=
  warmthCurveFn amount ((i * 2 : ℚ) / 44100 - 1)

/-- The gains of the stereo stage. -/
structure StereoGains where
  mid : ℚ
  side : ℚ
deriving DecidableEq

/-- The gain assignment of AudioEngine.updateSettings:
midGainNode.gain = monoToggle ? 0.5 : 1.0 and
sideGainNode.gain = monoToggle ? 0.5 : stereoWidth / 100. -/
def stereoGains (stereoWidth : ℚ) (monoToggle : Bool) : StereoGains :=
  { mid := if monoToggle then 0.5 else 1
    side := if monoToggle then 0.5 else stereoWidth / 100 }

/-- One frame through the stereo stage of setupSignalChain: the splitter
routes channel 0 (L) into midGainNode and channel 1 (R) into sideGainNode,
and both gain nodes are connected to both merger inputs, which sum;
hence both output channels carry mid*L + side*R. -/
def stereoStage (g : StereoGains) (L R : ℚ) : ℚ × ℚ :=
  (g.mid * L + g.side * R, g.mid * L + g.side * R)

/-- The stereo stage mapped over a buffer of (L, R) frames. -/
def stereoProcessBuffer (g : StereoGains) (frames : List (ℚ × ℚ)) : List (ℚ × ℚ) :=
  frames.map (fun p => stereoStage g p.1 p.2)

/-- The processing stages appearing in the signal graphs of
src/services/AudioEngine.ts. -/
inductive Stage where
  | inputGain
  | noiseExpander
  | hissFilter
  | crackleFilter
  | humNotch
  | bassFilter
  | midFilter
  | airFilter
  | spectralExciter
  | saturator
  | deReverbGate
  | dynamics
  | stereoWidth
  | limiter
  | masterGain
deriving DecidableEq

/-- The realtime wet path of setupSignalChain, in connection order:
input → noiseExpander → hissFilter → crackleFilter → humNotch → bassFilter
→ midFilter → airFilter → spectralExciter → saturator → deReverbGate →
dynamics → (wetGain) → stereo width stage → limiter → masterGain. -/
def realtimeWetChain : List Stage :=
  [.inputGain, .noiseExpander, .hissFilter, .crackleFilter, .humNotch,
   .bassFilter, .midFilter, .airFilter, .spectralExciter, .saturator,
   .deReverbGate, .dynamics, .stereoWidth, .limiter, .masterGain]

/-- The offline chain built by exportMaster in the current
src/services/AudioEngine.ts, in connection order:
source → exp → hiss → crackle → bass → mid → air → spectral → sat → lim
→ master. -/
def offlineChain : List Stage :=
  [.noiseExpander, .hissFilter, .crackleFilter, .bassFilter, .midFilter,
   .airFilter, .spectralExciter, .saturator, .limiter, .masterGain]

/-- The constructor arguments of the OfflineAudioContext in exportMaster:
new OfflineAudioContext(buffer.numberOfChannels, buffer.length,
buffer.sampleRate). -/
def offlineRenderParams (b : SBuffer) : ℕ × ℕ × ℕ :=
  (b.channels.length, b.frameCount, b.sampleRate)

/-- Realtime engine transport state: the set of source nodes currently
attached and playing (ids), the engine field this.source, and a fresh-id
counter for newly created sources. -/
structure EngineState where
  playing : List ℕ
  current : Option ℕ
  nextId : ℕ
deriving DecidableEq

/-- The engine before any source was attached. -/
def initEngine : EngineState := ⟨[], none, 0⟩

/-- AudioEngine.stop: if this.source is set, call source.stop() inside
try/catch (a transport that already finished naturally is simply absent
from the playing set, and the catch makes that a no-op rather than an
error) and clear this.source; if this.source is null, do nothing. -/
def stop (s : EngineState) : EngineState :=
  match s.current with
  | some id => ⟨s.playing.filter (fun j => j ≠ id), none, s.nextId⟩
  | none => s

/-- AudioEngine.play: first this.stop(), then create, connect and start a
fresh source. -/
def play (s : EngineState) : EngineState :=
  let t := stop s
  ⟨t.playing ++ [t.nextId], some t.nextId, t.nextId + 1⟩

/-- Environment event: a source's transport finishes naturally (the node
stops playing on its own, without the engine being told). -/
def finishEvent (s : EngineState) (id : ℕ) : EngineState :=
  ⟨s.playing.filter (fun j => j ≠ id), s.current, s.nextId⟩

/-- Engine states reachable from the initial state by play / stop calls
and natural transport finishes. -/
inductive Reachable : EngineState → Prop
  | init : Reachable initEngine
  | play {s} : Reachable s → Reachable (play s)
  | stop {s} : Reachable s → Reachable (stop s)
  | finish {s} (id : ℕ) : Reachable s → Reachable (finishEvent s id)

/-- Invariant of the realtime engine: every playing source is the one
this.source refers to (hence at most one source is attached). -/
def EngineInv (s : EngineState) : Prop :=
  s.playing.length ≤ 1 ∧ ∀ j ∈ s.playing, s.current = some j

/-- The partial settings record returned by analyzeTrackWithAI
(Partial of AudioSettings plus the aiInsight string). -/
structure AIProfile where
  hissSuppression : Option ℚ := none
  crackleSuppression : Option ℚ := none
  clickSensitivity : Option ℚ := none
  transientRecovery : Option ℚ := none
  bassBoost : Option ℚ := none
  midGain : Option ℚ := none
  airGain : Option ℚ := none
  warmth : Option ℚ := none
  deReverb : Option ℚ := none
  stereoWidth : Option ℚ := none
  aiInsight : Option String := none
deriving DecidableEq

/-- The fixed fallback profile returned by the catch branch of
analyzeTrackWithAI in src/services/geminiService.ts. -/
def fallbackProfile : AIProfile :=
  { hissSuppression := some 20
    crackleSuppression := some 15
    transientRecovery := some 30
    bassBoost := some 3
    airGain := some 4
    deReverb := some 0
    stereoWidth := some 110
    warmth := some 15
    aiInsight := some "Applied a clean modern-conversion profile as fallback." }

/-- Outcome of the awaited ai.models.generateContent call: the request
throws (network error / timeout), or resolves with response.text (which
may be absent). -/
inductive AICallOutcome where
  | failure
  | response (text : Option String)
deriving DecidableEq

/-- analyzeTrackWithAI of src/services/geminiService.ts, over the outcome
of the network call and an arbitrary JSON parse function: the try block
throws on a failed call, on missing/empty response text (if (!text))
and on an unparseable body (JSON.parse), and the catch returns the fixed
fallback profile in every one of those cases. -/
def analyzeTrackWithAI (outcome : AICallOutcome)
    (parseJson : String → Option AIProfile) : AIProfile :=
  match outcome with
  | .failure => fallbackProfile
  | .response none => fallbackProfile
  | .response (some t) =>
      if t.isEmpty then fallbackProfile
      else
        match parseJson t.trim with
        | some p => p
        | none => fallbackProfile

/-- The realtime master gain set by updateSettings:
Math.pow(10, settings.masterGain / 20). -/
noncomputable def realtimeMasterGain (masterGainDb : ℝ) : ℝ :=
  (10 : ℝ) ^ (masterGainDb / 20)

/-- The offline master gain set by exportMaster in the current
src/services/AudioEngine.ts: Math.pow(10, settings.masterGain / 20) * 0.8. -/
noncomputable def offlineMasterGain (masterGainDb : ℝ) : ℝ :=
  (10 : ℝ) ^ (masterGainDb / 20) * 0.8

/-- The concrete one-second 44.1 kHz stereo buffer of the spec scenario
(sample values are irrelevant to byte length; zeros used). -/
def oneSecondStereoBuf : SBuffer :=
  ⟨[List.replicate 44100 0, List.replicate 44100 0], 44100, 44100⟩

/-! ### Helper lemmas -/

theorem length_flatMap_const {α β : Type} (l : List α) (f : α → List β) (k : ℕ)
    (h : ∀ a, (f a).length = k) : (l.flatMap f).length = k * l.length := by
  induction l with
  | nil => simp
  | cons a t ih => simp [List.flatMap_cons, ih, h a, Nat.mul_succ, Nat.add_comm]

theorem interleave_length (channels : List (List ℚ)) (n : ℕ) :
    (interleave channels n).length = channels.length * n := by
  unfold interleave
  rw [length_flatMap_const _ _ channels.length (fun i => by simp)]
  simp [Nat.mul_comm]

theorem wavHeader_length (c r n : ℕ) : (wavHeader c r n).length = 44 := by
  simp [wavHeader, uint32LE, uint16LE]

theorem wavData_length (b : SBuffer) :
    (wavData b).length = b.frameCount * b.channels.length * 2 := by
  unfold wavData
  rw [length_flatMap_const _ _ 2 (fun s => by simp [int16LE, uint16LE]),
    interleave_length]
  ring

theorem bufferToWav_length (b : SBuffer) :
    (bufferToWav b).length = 44 + b.frameCount * b.channels.length * 2 := by
  simp [bufferToWav, wavHeader_length, wavData_length]

/-! ### Claim theorems -/

/-- C1: the claimed headroom correction pass does not exist in the current
exportMaster (src/services/AudioEngine.ts): the rendered buffer reaches the
encoder unchanged, so a render whose peak is 1 is encoded at full scale
1 > 0.98.  The pass of the part_000 variant would have scaled that buffer
to peak exactly 0.98. -/
theorem export_headroom_missing :
    exportPostRenderCurrent [[1]] = [[1]] ∧
    maxAbsSample (exportPostRenderCurrent [[1]]) = 1 ∧
    headroomCeiling < 1 ∧
    encodeSample 1 = 32767 ∧
    headroomCorrect [[1]] = [[49/50]] ∧
    maxAbsSample (headroomCorrect [[1]]) = headroomCeiling := by
  have h1 : maxAbsSample [[1]] = 1 := by
    norm_num [maxAbsSample, max_def]
  have h2 : headroomCorrect [[1]] = [[49/50]] := by
    rw [headroomCorrect, h1]
    norm_num [headroomCeiling]
  refine ⟨rfl, h1, by norm_num [headroomCeiling], ?_, h2, ?_⟩
  · norm_num [encodeSample, clamp, ratTrunc, min_def, max_def]
  · rw [h2]
    norm_num [maxAbsSample, headroomCeiling, max_def]

/-- C3 (amended): the WAV byte stream is exactly 44 header bytes plus
frameCount*channelCount*2 data bytes; for the one-second 44.1 kHz stereo
buffer that is 44 + 44100*2*2 bytes. -/
theorem wav_byte_length :
    (∀ b : SBuffer, (bufferToWav b).length = 44 + b.frameCount * b.channels.length * 2) ∧
    (bufferToWav oneSecondStereoBuf).length = 44 + 44100 * 2 * 2 := by
  refine ⟨bufferToWav_length, ?_⟩
  rw [bufferToWav_length]
  rfl

/-- C3 counterexample: the one-second 44.1 kHz stereo buffer encodes to
176444 bytes, not the claimed 352844. -/
theorem wav_byte_length_counterexample :
    (bufferToWav oneSecondStereoBuf).length = 176444 ∧ (176444 : ℕ) ≠ 352844 := by
  refine ⟨?_, by decide⟩
  rw [bufferToWav_length]
  rfl

/-- C5: at width = 100 % and monoToggle = false the stereo stage is not the
identity: the frame (L, R) = (1, 0) is mapped to (1, 1), and at width = 0 %
the same frame is mapped to (1, 1), not to the mono frame (1/2, 1/2) —
the stage computes mid*L + side*R on both output channels instead of a
mid/side transform. -/
theorem stereo_width_not_identity :
    stereoGains 100 false = ⟨1, 1⟩ ∧
    stereoStage (stereoGains 100 false) 1 0 = (1, 1) ∧
    ((1 : ℚ), (1 : ℚ)) ≠ ((1 : ℚ), (0 : ℚ)) ∧
    stereoStage (stereoGains 0 false) 1 0 = (1, 1) ∧
    ((1 : ℚ), (1 : ℚ)) ≠ ((1/2 : ℚ), (1/2 : ℚ)) := by
  refine ⟨?_, ?_, ?_, ?_, ?_⟩
  · simp only [stereoGains, if_neg Bool.false_ne_true]
    norm_num [StereoGains.mk.injEq]
  · norm_num [stereoStage, stereoGains, Prod.ext_iff]
  · norm_num [Prod.ext_iff]
  · norm_num [stereoStage, stereoGains, Prod.ext_iff]
  · norm_num [Prod.ext_iff]

/-- C6: monoToggle = true sets midGain = sideGain = 0.5, and the two output
channels of the stereo stage are identical on every frame of every buffer. -/
theorem mono_toggle_collapse :
    (∀ w : ℚ, stereoGains w true = ⟨0.5, 0.5⟩) ∧
    (∀ w : ℚ, ∀ frames : List (ℚ × ℚ),
      (stereoProcessBuffer (stereoGains w true) frames).map Prod.fst =
      (stereoProcessBuffer (stereoGains w true) frames).map Prod.snd) := by
  constructor
  · intro w; simp [stereoGains]
  · intro w frames
    simp [stereoProcessBuffer, stereoStage, List.map_map, Function.comp_def]

/-- C7 counterexample: the offline chain of exportMaster is not the same
stage list as the realtime wet path. -/
theorem offline_chain_differs : realtimeWetChain ≠ offlineChain := by decide

/-- C7 (amended): the offline chain of exportMaster is a strict
subsequence of the realtime wet path (it omits the input pre-gain, hum
notch, de-reverb gate, dynamics compressor and stereo width stages, in the
same relative order), and the offline context is created with the input
buffer's channel count, frame count and sample rate. -/
theorem offline_chain_sublist :
    offlineChain.Sublist realtimeWetChain ∧
    offlineChain ≠ realtimeWetChain ∧
    ∀ b : SBuffer,
      offlineRenderParams b = (b.channels.length, b.frameCount, b.sampleRate) := by
  refine ⟨by decide, by decide, fun b => rfl⟩

/-- C9: whenever the AI call fails — thrown network error / timeout,
missing or empty response text, or unparseable JSON — analyzeTrackWithAI
returns exactly the fixed fallback profile, whose field values are the
documented defaults; no error is surfaced. -/
theorem analyzeTrackWithAI_fallback :
    (∀ parse : String → Option AIProfile,
      analyzeTrackWithAI .failure parse = fallbackProfile ∧
      analyzeTrackWithAI (.response none) parse = fallbackProfile ∧
      ∀ t : String, (t.isEmpty = true ∨ parse t.trim = none) →
        analyzeTrackWithAI (.response (some t)) parse = fallbackProfile) ∧
    fallbackProfile.hissSuppression = some 20 ∧
    fallbackProfile.crackleSuppression = some 15 ∧
    fallbackProfile.transientRecovery = some 30 ∧
    fallbackProfile.bassBoost = some 3 ∧
    fallbackProfile.airGain = some 4 ∧
    fallbackProfile.deReverb = some 0 ∧
    fallbackProfile.stereoWidth = some 110 ∧
    fallbackProfile.warmth = some 15 ∧
    fallbackProfile.aiInsight = some "Applied a clean modern-conversion profile as fallback." := by
  refine ⟨fun parse => ⟨rfl, rfl, fun t ht => ?_⟩, rfl, rfl, rfl, rfl, rfl, rfl, rfl, rfl, rfl⟩
  rcases ht with he | hp
  · simp [analyzeTrackWithAI, he]
  · simp [analyzeTrackWithAI, hp]

/-- C9 witness: a failed call and an unparseable response both yield the
fallback profile. -/
theorem analyzeTrackWithAI_fallback_witness :
    analyzeTrackWithAI .failure (fun _ => none) = fallbackProfile ∧
    analyzeTrackWithAI (.response (some "not json")) (fun _ => none) = fallbackProfile :=
  ⟨(analyzeTrackWithAI_fallback.1 (fun _ => none)).1,
   (analyzeTrackWithAI_fallback.1 (fun _ => none)).2.2 "not json" (Or.inr rfl)⟩

/-- C10: for every settings value the offline export master gain is the
realtime master gain times the constant 0.8, the realtime gain is strictly
positive, and the ratio offline/realtime is exactly 0.8. -/
theorem offline_master_gain_ratio :
    ∀ g : ℝ, offlineMasterGain g = realtimeMasterGain g * 0.8 ∧
      0 < realtimeMasterGain g ∧
      offlineMasterGain g / realtimeMasterGain g = 0.8 := by
  intro g
  have hpos : (0 : ℝ) < (10 : ℝ) ^ (g / 20) := Real.rpow_pos_of_pos (by norm_num) _
  refine ⟨rfl, hpos, ?_⟩
  unfold offlineMasterGain realtimeMasterGain
  rw [mul_comm, mul_div_assoc, div_self hpos.ne', mul_one]

/-! ### C2: per-sample WAV conversion -/

/-- C2: the encoder's per-sample conversion is exactly the spec formula
(clamp to [-1,1], then sample<0 ? sample*32768 : sample*32767, truncated
toward zero), its result always fits an int16 (no +32768 overflow), and
the data section applies it to every interleaved sample of every channel. -/
theorem wav_encode_per_sample :
    (∀ x : ℚ, encodeSample x = specFloatToInt16 x) ∧
    (∀ x : ℚ, -32768 ≤ encodeSample x ∧ encodeSample x ≤ 32767) ∧
    (∀ b : SBuffer, wavData b =
      (interleave b.channels b.frameCount).flatMap
        (fun s => int16LE (specFloatToInt16 s))) := by
  have heq : ∀ x : ℚ, encodeSample x = specFloatToInt16 x := by
    intro x
    unfold encodeSample specFloatToInt16 clamp
    exact apply_ite ratTrunc _ _ _
  refine ⟨heq, ?_, ?_⟩
  · intro x
    have hc1 : -1 ≤ clamp x := le_max_left _ _
    have hc2 : clamp x ≤ 1 := max_le (by norm_num) (min_le_left _ _)
    unfold encodeSample ratTrunc
    rcases lt_or_le (clamp x) 0 with h | h
    · rw [if_pos h]
      have hv : clamp x * 32768 < 0 := mul_neg_of_neg_of_pos h (by norm_num)
      rw [if_pos hv]
      constructor
      · have hlow : ((-32768 : ℤ) : ℚ) ≤ clamp x * 32768 := by push_cast; nlinarith
        exact_mod_cast hlow.trans (Int.le_ceil _)
      · exact Int.ceil_le.mpr (by push_cast; nlinarith)
    · rw [if_neg (not_lt.mpr h)]
      rw [if_neg (not_lt.mpr (mul_nonneg h (by norm_num)))]
      constructor
      · exact Int.le_floor.mpr (by push_cast; nlinarith)
      · have hup : clamp x * 32767 ≤ ((32767 : ℤ) : ℚ) := by push_cast; nlinarith
        exact_mod_cast (Int.floor_le _).trans hup
  · intro b
    unfold wavData
    simp only [heq]

/-! ### C4: warmth curve -/

theorem mul_abs_cross {x y : ℚ} (h : x ≤ y) : x * |y| ≤ y * |x| := by
  rcases le_total 0 x with hx | hx
  · rw [abs_of_nonneg (hx.trans h), abs_of_nonneg hx, mul_comm]
  · rcases le_total 0 y with hy | hy
    · rw [abs_of_nonneg hy, abs_of_nonpos hx]
      nlinarith
    · rw [abs_of_nonpos hy, abs_of_nonpos hx]
      nlinarith

theorem mathPI_pos : (0 : ℚ) < mathPI := by norm_num [mathPI]

theorem warmth_denom_pos (k x : ℚ) (hk : 0 ≤ k) : 0 < mathPI + k * |x| :=
  add_pos_of_pos_of_nonneg mathPI_pos (mul_nonneg hk (abs_nonneg x))

theorem warmth_mono_aux (k x y : ℚ) (hk : 0 ≤ k) (hxy : x ≤ y) :
    (mathPI + k) * x / (mathPI + k * |x|) ≤ (mathPI + k) * y / (mathPI + k * |y|) := by
  have hdx := warmth_denom_pos k x hk
  have hdy := warmth_denom_pos k y hk
  have hnum : (0 : ℚ) ≤ mathPI + k := by nlinarith [mathPI_pos]
  rw [div_le_div_iff₀ hdx hdy]
  have key := mul_abs_cross hxy
  have inner : x * (mathPI + k * |y|) ≤ y * (mathPI + k * |x|) := by
    nlinarith [mul_le_mul_of_nonneg_left key hk,
      mul_le_mul_of_nonneg_left hxy mathPI_pos.le]
  calc (mathPI + k) * x * (mathPI + k * |y|)
      = (mathPI + k) * (x * (mathPI + k * |y|)) := by ring
    _ ≤ (mathPI + k) * (y * (mathPI + k * |x|)) :=
        mul_le_mul_of_nonneg_left inner hnum
    _ = (mathPI + k) * y * (mathPI + k * |x|) := by ring

/-- C4: amount = 0 yields the identity function (also on the generated
44100-entry table grid), and for every amount in the documented range
[0,100] the curve is monotone, odd-symmetric, and maps |x| ≤ 1 into
|y| ≤ 1. -/
theorem makeWarmthCurve_props :
    (∀ x : ℚ, warmthCurveFn 0 x = x) ∧
    (∀ i : ℕ, makeWarmthCurve 0 i = (i * 2 : ℚ) / 44100 - 1) ∧
    (∀ amount : ℚ, 0 ≤ amount → amount ≤ 100 →
      (∀ x y : ℚ, x ≤ y → warmthCurveFn amount x ≤ warmthCurveFn amount y) ∧
      (∀ x : ℚ, warmthCurveFn amount (-x) = -warmthCurveFn amount x) ∧
      (∀ x : ℚ, |x| ≤ 1 → |warmthCurveFn amount x| ≤ 1)) := by
  have hid : ∀ x : ℚ, warmthCurveFn 0 x = x := by
    intro x
    unfold warmthCurveFn
    norm_num
    exact mul_div_cancel_left₀ x mathPI_pos.ne'
  refine ⟨hid, fun i => hid _, ?_⟩
  intro amount h0 _
  have hk : (0 : ℚ) ≤ amount * 0.25 := mul_nonneg h0 (by norm_num)
  refine ⟨?_, ?_, ?_⟩
  · intro x y hxy
    exact warmth_mono_aux (amount * 0.25) x y hk hxy
  · intro x
    unfold warmthCurveFn
    rw [abs_neg, mul_neg, neg_div]
  · intro x hx
    have hd := warmth_denom_pos (amount * 0.25) x hk
    have hnum : (0 : ℚ) < mathPI + amount * 0.25 := by nlinarith [mathPI_pos]
    unfold warmthCurveFn
    rw [abs_div, abs_mul, abs_of_pos hnum, abs_of_pos hd, div_le_one hd]
    nlinarith [mul_le_mul_of_nonneg_left hx mathPI_pos.le, abs_nonneg x]

/-- C4 witness: concrete instances of identity, monotonicity, odd symmetry
and boundedness of the warmth curve. -/
theorem makeWarmthCurve_props_witness :
    warmthCurveFn 0 (1/2) = 1/2 ∧
    warmthCurveFn 40 (1/2) ≤ warmthCurveFn 40 1 ∧
    warmthCurveFn 40 (-(1/2)) = -warmthCurveFn 40 (1/2) ∧
    |warmthCurveFn 40 1| ≤ 1 :=
  ⟨makeWarmthCurve_props.1 _,
   (makeWarmthCurve_props.2.2 40 (by norm_num) (by norm_num)).1 _ _ (by norm_num),
   (makeWarmthCurve_props.2.2 40 (by norm_num) (by norm_num)).2.1 _,
   (makeWarmthCurve_props.2.2 40 (by norm_num) (by norm_num)).2.2 1 (by norm_num)⟩

/-! ### C8: realtime engine transport invariant -/

theorem stop_nextId (s : EngineState) : (stop s).nextId = s.nextId := by
  cases hc : s.current <;> simp [stop, hc]

theorem stop_current (s : EngineState) : (stop s).current = none ∨ stop s = s := by
  cases hc : s.current with
  | none => exact Or.inr (by simp [stop, hc])
  | some id => exact Or.inl (by simp [stop, hc])

theorem reachable_inv (s : EngineState) (h : Reachable s) : EngineInv s := by
  induction h with
  | init => exact ⟨by simp [initEngine], by simp [initEngine]⟩
  | @play s _ ih =>
    obtain ⟨_, hmem⟩ := ih
    have hstopnil : (stop s).playing = [] := by
      cases hc : s.current with
      | none =>
        have hnil : s.playing = [] := by
          refine List.eq_nil_iff_forall_not_mem.mpr (fun j hj => ?_)
          have hj2 := hmem j hj
          rw [hc] at hj2
          exact Option.noConfusion hj2
        simp [stop, hc, hnil]
      | some id =>
        simp only [stop, hc]
        refine List.eq_nil_iff_forall_not_mem.mpr (fun j hj => ?_)
        rcases List.mem_filter.mp hj with ⟨hjmem, hneq⟩
        have hj2 := hmem j hjmem
        rw [hc] at hj2
        have hji : id = j := by injection hj2
        exact (of_decide_eq_true hneq) hji.symm
    constructor
    · simp [play, hstopnil]
    · intro j hj
      simp only [play, hstopnil, List.nil_append, List.mem_singleton] at hj
      simp [play, hj]
  | @stop s _ ih =>
    obtain ⟨hlen, hmem⟩ := ih
    cases hc : s.current with
    | none => simpa [stop, hc] using ⟨hlen, hmem⟩
    | some id =>
      constructor
      · simp only [stop, hc]
        exact le_trans (List.length_filter_le _ _) hlen
      · intro j hj
        simp only [stop, hc] at hj ⊢
        rcases List.mem_filter.mp hj with ⟨hjmem, hneq⟩
        have hj2 := hmem j hjmem
        rw [hc] at hj2
        have hji : id = j := by injection hj2
        exact absurd hji.symm (of_decide_eq_true hneq)
  | @finish s id _ ih =>
    obtain ⟨hlen, hmem⟩ := ih
    constructor
    · exact le_trans (List.length_filter_le _ _) hlen
    · intro j hj
      rcases List.mem_filter.mp hj with ⟨hjmem, _⟩
      exact hmem j hjmem

/-- C8: in every reachable engine state at most one source is playing;
stop is the identity when no source is attached; stop on a source whose
transport already finished naturally still succeeds (it merely clears
this.source); and play always stops the previous source first, so after
play only the newly created source is playing. -/
theorem engine_single_source :
    (∀ s : EngineState, Reachable s → s.playing.length ≤ 1) ∧
    (∀ s : EngineState, s.current = none → stop s = s) ∧
    (∀ s : EngineState, ∀ id : ℕ, s.current = some id → id ∉ s.playing →
      stop s = ⟨s.playing, none, s.nextId⟩) ∧
    (∀ s : EngineState, Reachable s →
      (play s).playing = [s.nextId] ∧ (play s).current = some s.nextId) := by
  refine ⟨fun s h => (reachable_inv s h).1, ?_, ?_, ?_⟩
  · intro s hc
    simp [stop, hc]
  · intro s id hc hnot
    have hfix : s.playing.filter (fun j => j ≠ id) = s.playing := by
      refine List.filter_eq_self.mpr (fun j hj => ?_)
      exact decide_eq_true (fun hji => hnot (hji ▸ hj))
    simp only [stop, hc, hfix]
  · intro s h
    obtain ⟨_, hmem⟩ := reachable_inv s h
    have hstopnil : (stop s).playing = [] := by
      cases hc : s.current with
      | none =>
        have hnil : s.playing = [] := by
          refine List.eq_nil_iff_forall_not_mem.mpr (fun j hj => ?_)
          have hj2 := hmem j hj
          rw [hc] at hj2
          exact Option.noConfusion hj2
        simp [stop, hc, hnil]
      | some id =>
        simp only [stop, hc]
        refine List.eq_nil_iff_forall_not_mem.mpr (fun j hj => ?_)
        rcases List.mem_filter.mp hj with ⟨hjmem, hneq⟩
        have hj2 := hmem j hjmem
        rw [hc] at hj2
        have hji : id = j := by injection hj2
        exact (of_decide_eq_true hneq) hji.symm
    constructor
    · simp [play, hstopnil, stop_nextId]
    · simp [play, stop_nextId]

/-- C8 witness: the invariant, idempotent stop, finished-transport stop
and play-stops-first behavior at concrete states. -/
theorem engine_single_source_witness :
    initEngine.playing.length ≤ 1 ∧
    stop initEngine = initEngine ∧
    stop ⟨[], some 5, 6⟩ = ⟨[], none, 6⟩ ∧
    (play initEngine).playing = [initEngine.nextId] :=
  ⟨engine_single_source.1 initEngine Reachable.init,
   engine_single_source.2.1 initEngine rfl,
   engine_single_source.2.2.1 ⟨[], some 5, 6⟩ 5 rfl (by simp),
   (engine_single_source.2.2.2 initEngine Reachable.init).1⟩
